import Mathlib

/-!
Verification of the Payment Order Reconciliation Engine specification against
the betrix-ui repository. The engine itself (Order Store, createPaymentOrder,
verifyAndActivatePayment) is not present among the repository sources — only
its HTTP callers are (the PayPal routes in src/src/app.js merely queue jobs) —
so those definitions are modelled from the specification text and are marked as
such. The rate-limiting middleware, the Telegram `/webhook` route and the
Telegram message handler are embedded directly from src/src/app.js and
src/src/handlers/telegram-handler-v2.js.
-/

namespace Betrix

/-- Association-list lookup, modelling the Keyed Store's `get(key)`. -/
def aget {α β : Type} [DecidableEq α] : List (α × β) → α → Option β
  | [], _ => none
  | (k, v) :: t, k' => if k = k' then some v else aget t k'

/-- Association-list write, modelling a single-key write into the Keyed Store. -/
def aset {α β : Type} [DecidableEq α] : List (α × β) → α → β → List (α × β)
  | [], k, v => [(k, v)]
  | (k', v') :: t, k, v => if k' = k then (k, v) :: t else (k', v') :: aset t k v

/-- Order lifecycle states (spec §3, `state` field). -/
inductive OState
  | PENDING
  | VERIFIED
  | ACTIVATED
  | FAILED
  | EXPIRED
  deriving DecidableEq, Repr

/-- Payment provider kinds (spec §3, `provider` enum). -/
inductive Provider
  | REDIRECT_CHECKOUT
  | PUSH_TO_PAY
  | MANUAL_REFERENCE
  | WALLET_PAY
  deriving DecidableEq, Repr

/-- Modelled from the spec: the central `Order` entity of §3. The Reconciliation
Engine's order modules are missing from the repository sources (only the HTTP
routes that would call them exist), so the record follows the field list of §3. -/
structure Order where
  orderId : String
  userId : String
  tier : String
  provider : Provider
  region : String
  providerRef : Option String
  metadata : String
  state : OState
  createdAt : Nat
  expiresAt : Nat
  activationTxId : Option String
  deriving DecidableEq, Repr

/-- Modelled from the spec: the Order Store's canonical record plus its two
index mappings (§4.2, §6 persisted state layout). -/
structure StoreState where
  orders : List (String × Order)
  byUserPending : List (String × String)
  byProviderRef : List ((Provider × String) × String)
  deriving DecidableEq, Repr

/-- Error taxonomy of spec §7. -/
inductive EngineError
  | ProviderUnavailable
  | InvalidRequest
  | OrderIdCollision
  | ProviderRefCollision
  | UnknownOrder
  | TransactionMismatch
  | OrderClosed
  | OrderExpired
  | VerificationFailed
  | StaleState
  deriving DecidableEq, Repr

/-- Modelled from the spec: `createOrder` of §4.2 — write keyed by `orderId`
only if absent, `OrderIdCollision` otherwise. -/
def createOrder (o : Order) (s : StoreState) : Except EngineError StoreState :=
  match aget s.orders o.orderId with
  | some _ => .error .OrderIdCollision
  | none => .ok { s with orders := aset s.orders o.orderId o }

/-- Modelled from the spec: `indexByUser` of §4.2 — unconditional overwrite of
the user-pending pointer (most-recent pending order wins). -/
def indexByUser (userId orderId : String) (s : StoreState) : StoreState :=
  { s with byUserPending := aset s.byUserPending userId orderId }

/-- Modelled from the spec: `indexByProviderRef` of §4.2 — write only if
absent; an existing identical mapping means "already indexed, proceed"; an
existing different mapping is `ProviderRefCollision`. -/
def indexByProviderRef (p : Provider) (ref orderId : String) (s : StoreState) :
    Except EngineError StoreState :=
  match aget s.byProviderRef (p, ref) with
  | none => .ok { s with byProviderRef := aset s.byProviderRef (p, ref) orderId }
  | some existing => if existing = orderId then .ok s else .error .ProviderRefCollision

/-- Modelled from the spec: read path `getByOrderId` of §4.2. -/
def getByOrderId (orderId : String) (s : StoreState) : Option Order :=
  aget s.orders orderId

/-- Modelled from the spec: read path `getByUserPending` of §4.2. -/
def getByUserPending (userId : String) (s : StoreState) : Option String :=
  aget s.byUserPending userId

/-- Modelled from the spec: read path `getByProviderRef` of §4.2. -/
def getByProviderRef (p : Provider) (ref : String) (s : StoreState) : Option String :=
  aget s.byProviderRef (p, ref)

/-- Modelled from the spec: the compare-and-set `transition` of §4.2 —
succeeds only if the stored state equals `fromState`, atomically updating
`state` and (when given) `activationTxId`; `StaleState` otherwise. -/
def transition (orderId : String) (fromState toState : OState) (txId : Option String)
    (s : StoreState) : Except EngineError StoreState :=
  match aget s.orders orderId with
  | none => .error .StaleState
  | some o =>
    if o.state = fromState then
      .ok { s with
            orders := aset s.orders orderId
              { o with
                state := toState,
                activationTxId := match txId with
                  | none => o.activationTxId
                  | some t => some t } }
    else .error .StaleState

/-- Result record returned by order creation (spec §4.3). -/
structure CreateResult where
  orderId : String
  providerRef : Option String
  metadata : String
  deriving DecidableEq, Repr

/-- Modelled from the spec: `createPaymentOrder` of §4.3. The fresh id and the
Provider Adapter's `initiate` outcome (provider reference and checkout
metadata, or an error) are passed in as parameters, since id generation and the
provider round-trip are external. The accompanying store is always returned so
that failed attempts can be compared with the prior store. -/
def createPaymentOrder (freshId userId tier : String) (provider : Provider)
    (region : String) (adapterResult : Except EngineError (Option String × String))
    (now ttl : Nat) (s : StoreState) :
    Except EngineError CreateResult × StoreState :=
  match adapterResult with
  | .error e => (.error e, s)
  | .ok (pref, meta) =>
    let o : Order :=
      { orderId := freshId, userId := userId, tier := tier, provider := provider,
        region := region, providerRef := pref, metadata := meta, state := .PENDING,
        createdAt := now, expiresAt := now + ttl, activationTxId := none }
    match createOrder o s with
    | .error e => (.error e, s)
    | .ok s1 =>
      let s2 := indexByUser userId freshId s1
      match pref with
      | none => (.ok ⟨freshId, none, meta⟩, s2)
      | some r =>
        match indexByProviderRef provider r freshId s2 with
        | .error e => (.error e, s2)
        | .ok s3 => (.ok ⟨freshId, some r, meta⟩, s3)

/-- Engine-level state: the Order Store plus the log of Activation Sink
invocations `(userId, tier)` (spec §6, outbound `activate` calls). -/
structure EngineState where
  store : StoreState
  sinkCalls : List (String × String)
  deriving DecidableEq, Repr

/-- An admissible verification key (spec §4.4): an order id or a
`(provider, providerRef)` pair. -/
inductive OrderKey
  | byId (orderId : String)
  | byRef (p : Provider) (ref : String)
  deriving DecidableEq, Repr

/-- Modelled from the spec: step 1 of §4.4 — resolve an order key through the
appropriate Order Store lookup. -/
def resolveOrder (key : OrderKey) (s : StoreState) : Option Order :=
  match key with
  | .byId oid => getByOrderId oid s
  | .byRef p r => (getByProviderRef p r s).bind fun oid => getByOrderId oid s

/-- Result record returned by verification (spec §6). -/
structure VerifyResult where
  orderId : String
  state : OState
  deriving DecidableEq, Repr

/-- Modelled from the spec: `verifyAndActivatePayment` of §4.4, steps 1–8.
Provider-specific verification is the predicate `vOk`, Activation Sink success
is `sinkOk`, and the `StaleState` re-read-and-recurse of step 6 (and §7) is
bounded by `fuel`. Sink invocations are appended to `sinkCalls`; on sink
failure the order is left `VERIFIED` (step 8). -/
def verifyAndActivatePayment (fuel : Nat) (key : OrderKey) (tx : String) (now : Nat)
    (vOk : String → Order → Bool) (sinkOk : Bool) (es : EngineState) :
    Except EngineError VerifyResult × EngineState :=
  match fuel with
  | 0 => (.error .StaleState, es)
  | fuel + 1 =>
    match resolveOrder key es.store with
    | none => (.error .UnknownOrder, es)
    | some o =>
      if o.state = .ACTIVATED then
        if o.activationTxId = some tx then (.ok ⟨o.orderId, .ACTIVATED⟩, es)
        else (.error .TransactionMismatch, es)
      else if o.state = .FAILED ∨ o.state = .EXPIRED then (.error .OrderClosed, es)
      else if o.expiresAt < now then
        match transition o.orderId .PENDING .EXPIRED none es.store with
        | .ok s' => (.error .OrderExpired, { es with store := s' })
        | .error _ => verifyAndActivatePayment fuel key tx now vOk sinkOk es
      else if vOk tx o then
        match transition o.orderId .PENDING .VERIFIED none es.store with
        | .ok s' =>
          let es' : EngineState := ⟨s', es.sinkCalls ++ [(o.userId, o.tier)]⟩
          if sinkOk then
            match transition o.orderId .VERIFIED .ACTIVATED (some tx) es'.store with
            | .ok s'' => (.ok ⟨o.orderId, .ACTIVATED⟩, { es' with store := s'' })
            | .error _ => (.error .StaleState, es')
          else (.ok ⟨o.orderId, .VERIFIED⟩, es')
        | .error _ => verifyAndActivatePayment fuel key tx now vOk sinkOk es
      else
        match transition o.orderId .PENDING .FAILED none es.store with
        | .ok s' => (.error .VerificationFailed, { es with store := s' })
        | .error _ => verifyAndActivatePayment fuel key tx now vOk sinkOk es

/-- Well-formedness of the Order Store: every stored order is keyed by its own
`orderId` (holds for every store the engine builds, since `createOrder` keys by
`orderId` and `transition` preserves it). -/
def StoreWF (s : StoreState) : Prop :=
  ∀ oid o, aget s.orders oid = some o → o.orderId = oid

/-- Boolean sufficient condition for `StoreWF`, decidable on concrete stores. -/
def storeKeysOK : List (String × Order) → Bool
  | [] => true
  | (k, o) :: t => decide (o.orderId = k) && storeKeysOK t

instance {ε α : Type} [DecidableEq ε] [DecidableEq α] : DecidableEq (Except ε α) := fun a b =>
  match a, b with
  | .error e, .error f =>
    if h : e = f then .isTrue (by rw [h]) else .isFalse (by intro hh; cases hh; exact h rfl)
  | .error _, .ok _ => .isFalse (by intro h; cases h)
  | .ok _, .error _ => .isFalse (by intro h; cases h)
  | .ok x, .ok y =>
    if h : x = y then .isTrue (by rw [h]) else .isFalse (by intro hh; cases hh; exact h rfl)

/-- Concrete order used by witnesses: an already activated order. -/
def sampleActivatedOrder : Order :=
  { orderId := "o1", userId := "u1", tier := "daily", provider := .PUSH_TO_PAY,
    region := "KE", providerRef := some "r1", metadata := "m", state := .ACTIVATED,
    createdAt := 0, expiresAt := 100, activationTxId := some "tx1" }

/-- Engine state holding `sampleActivatedOrder`, used by witnesses. -/
def sampleActivatedES : EngineState :=
  ⟨⟨[("o1", sampleActivatedOrder)], [("u1", "o1")], [((.PUSH_TO_PAY, "r1"), "o1")]⟩, []⟩

/-- Concrete order used by witnesses: first sample creation. -/
def sampleOrderA : Order :=
  { orderId := "o1", userId := "u1", tier := "daily", provider := .PUSH_TO_PAY,
    region := "KE", providerRef := some "r1", metadata := "m1", state := .PENDING,
    createdAt := 0, expiresAt := 60, activationTxId := none }

/-- Concrete order used by witnesses: second sample creation. -/
def sampleOrderB : Order :=
  { orderId := "o2", userId := "u1", tier := "weekly", provider := .MANUAL_REFERENCE,
    region := "KE", providerRef := none, metadata := "m2", state := .PENDING,
    createdAt := 1, expiresAt := 61, activationTxId := none }

/-- Store after creating `sampleOrderA` in an empty store. -/
def sampleOneStore : StoreState :=
  ⟨[("o1", sampleOrderA)], [("u1", "o1")], [((.PUSH_TO_PAY, "r1"), "o1")]⟩

/-- Store after additionally creating `sampleOrderB` for the same user. -/
def sampleTwoStore : StoreState :=
  ⟨[("o1", sampleOrderA), ("o2", sampleOrderB)], [("u1", "o2")],
    [((.PUSH_TO_PAY, "r1"), "o1")]⟩

/-- The forward transition edges of spec §3 invariant 5:
`PENDING → VERIFIED → ACTIVATED`, `PENDING → FAILED`, `PENDING → EXPIRED`. -/
def allowedStep : OState → OState → Bool
  | .PENDING, .VERIFIED => true
  | .PENDING, .FAILED => true
  | .PENDING, .EXPIRED => true
  | .VERIFIED, .ACTIVATED => true
  | _, _ => false

/-- Zero or more forward transition edges. -/
def Advance : OState → OState → Prop :=
  Relation.ReflTransGen fun a b => allowedStep a b = true

/-- An engine operation: an order creation or a verification call (the only
code paths that mutate orders, spec §3 lifecycle). -/
inductive EngineOp
  | create (freshId userId tier : String) (provider : Provider) (region : String)
      (adapterResult : Except EngineError (Option String × String)) (now ttl : Nat)
  | verify (fuel : Nat) (key : OrderKey) (tx : String) (now : Nat)
      (vOk : String → Order → Bool) (sinkOk : Bool)

/-- Effect of an engine operation on the engine state. -/
def applyOp (es : EngineState) (op : EngineOp) : EngineState :=
  match op with
  | .create fid u t p r a now ttl =>
    { es with store := (createPaymentOrder fid u t p r a now ttl es.store).2 }
  | .verify fuel key tx now vOk sOk =>
    (verifyAndActivatePayment fuel key tx now vOk sOk es).2

/-- Between two stores, every order present in both has only advanced. -/
def AdvanceOK (s s' : StoreState) : Prop :=
  ∀ k o o', aget s.orders k = some o → aget s'.orders k = some o' →
    Advance o.state o'.state

/-- Between two stores, no order is ever deleted. -/
def PresOK (s s' : StoreState) : Prop :=
  ∀ k o, aget s.orders k = some o → ∃ o', aget s'.orders k = some o'

/-- Shape of a Telegram message as consumed by the `/webhook` route of
src/src/app.js (`chat.id`, `text`, `from.id`). -/
structure TgMessage where
  chatId : Option Int
  text : Option String
  fromId : Option Int
  deriving DecidableEq, Repr

/-- Shape of an inbound Telegram update (`req.body`) for the `/webhook` route. -/
structure TgUpdate where
  message : Option TgMessage
  deriving DecidableEq, Repr

/-- JS truthiness of `msg?.chat?.id` (absent or `0` is falsy). -/
def truthyId : Option Int → Bool
  | none => false
  | some n => decide (n ≠ 0)

/-- JS truthiness of `msg?.text?.trim()` (absent, or empty after trim, is falsy). -/
def truthyText : Option String → Bool
  | none => false
  | some s => decide (s ≠ "")

/-- The three commands with a registered handler in the `/webhook` route
(`commandHandlers` literal of src/src/app.js). -/
def webhookCommands : List String := ["/start", "/pricing", "/dashboard"]

/-- HTTP response of the `/webhook` route: status code plus the `processed`
flag of the JSON body. -/
structure WebhookReply where
  status : Nat
  processed : Bool
  deriving DecidableEq, Repr

/-- Try-block of the `/webhook` route (src/src/app.js lines 615–657): when
chat id and trimmed text are truthy, a known command is answered directly
(`sendTelegram` never throws — it catches internally), otherwise the message
is queued (`queueJob` rethrows Redis failures) and acknowledged; then per-user
stats are updated (`hincrby`/`expire` may reject). The awaited effect outcomes
are passed in as `Except` parameters. -/
def webhookTryBlock (update : TgUpdate) (queueR hincrR expireR : Except String Unit) :
    Except String Unit :=
  match update.message with
  | none => .ok ()
  | some msg =>
    let text := msg.text.map String.trim
    if truthyId msg.chatId && truthyText text then do
      if (text.getD "") ∈ webhookCommands then pure () else queueR
      hincrR
      expireR
    else .ok ()

/-- The `/webhook` route handler: responds `200/processed:true` when the try
block succeeds and `200/processed:false` from the catch branch
(src/src/app.js lines 658–662). -/
def webhookHandler (update : TgUpdate) (queueR hincrR expireR : Except String Unit) :
    WebhookReply :=
  match webhookTryBlock update queueR hincrR expireR with
  | .ok _ => ⟨200, true⟩
  | .error _ => ⟨200, false⟩

/-- JS falsiness of the request's user id (`!userId`: absent or empty). -/
def absentUserId : Option String → Bool
  | none => true
  | some s => decide (s = "")

/-- `getUserTier` of src/src/app.js lines 290–299: an absent user id gives
"free"; a throwing Redis lookup is caught and gives "free"; otherwise the
cached tier with the `|| "free"` falsy fallback. -/
def getUserTier (userId : Option String) (cacheLookup : Except String (Option String)) :
    String :=
  if absentUserId userId then "free"
  else
    match cacheLookup with
    | .error _ => "free"
    | .ok none => "free"
    | .ok (some t) => if t = "" then "free" else t

/-- The four rate limiters of src/src/app.js lines 285–288. -/
inductive RateLimiter
  | admin
  | vvip
  | member
  | free
  deriving DecidableEq, Repr

/-- Per-minute request ceiling of each limiter (src/src/app.js lines 285–288). -/
def limiterMax : RateLimiter → Nat
  | .admin => 300
  | .vvip => 150
  | .member => 60
  | .free => 30

/-- `tierBasedRateLimiter` of src/src/app.js lines 301–314: dispatch on the
resolved tier, falling through to the free limiter (also on caught errors). -/
def tierBasedRateLimiter (userId : Option String)
    (cacheLookup : Except String (Option String)) : RateLimiter :=
  let tier := getUserTier userId cacheLookup
  if tier = "admin" then .admin
  else if tier = "vvip" then .vvip
  else if tier = "member" then .member
  else .free

/-- Reply object returned by the Telegram handler (the fields every reply
branch populates). -/
structure BotReply where
  chatId : Int
  text : String
  deriving DecidableEq, Repr

/-- Message shape used by `handleMessage` of
src/src/handlers/telegram-handler-v2.js. -/
structure BotMessage where
  chatId : Int
  fromId : Int
  text : String
  deriving DecidableEq, Repr

/-- Update shape for `update.message || update.edited_message`. -/
structure BotUpdate where
  message : Option BotMessage
  edited_message : Option BotMessage
  deriving DecidableEq, Repr

/-- `handleMessage` of src/src/handlers/telegram-handler-v2.js lines 38–64:
the whole body sits in a try/catch; a missing message returns null, and any
error thrown by the inner processing (session write, logging, command or
natural-language dispatch — abstracted as `inner`) is caught and also yields
null. -/
def handleMessage (update : BotUpdate)
    (inner : BotMessage → Except String (Option BotReply)) : Option BotReply :=
  match update.message.orElse (fun _ => update.edited_message) with
  | none => none
  | some m =>
    match inner m with
    | .error _ => none
    | .ok r => r

/-- Per-caller control point of a concurrent verification call. Modelled from
the spec: §4.4 with the atomicity model of §5 — each Order Store read or
compare-and-set is one atomic event; local computation is free. The carried
`Order` is the caller's last read of the order record. -/
inductive VPhase
  | start
  | attemptExpire (o : Order)
  | attemptFail (o : Order)
  | attemptVerify (o : Order)
  | invokeSink (o : Order)
  | finalize (o : Order)
  | done (r : Except EngineError VerifyResult)
  deriving DecidableEq, Repr

/-- One atomic step of a single verification caller (spec §4.4 steps 1–8):
`start` performs the resolve-and-examine read (steps 1–5), the three `attempt`
phases perform the corresponding compare-and-set (steps 4, 5, 6) and fall back
to a re-read on `StaleState`, `invokeSink` performs the Activation Sink call
(step 7), `finalize` performs the `VERIFIED → ACTIVATED` compare-and-set
(step 8). -/
def callerStep (key : OrderKey) (tx : String) (now : Nat) (vOk : String → Order → Bool)
    (sinkOk : Bool) (es : EngineState) : VPhase → EngineState × VPhase
  | .start =>
    match resolveOrder key es.store with
    | none => (es, .done (.error .UnknownOrder))
    | some o =>
      if o.state = .ACTIVATED then
        if o.activationTxId = some tx then (es, .done (.ok ⟨o.orderId, .ACTIVATED⟩))
        else (es, .done (.error .TransactionMismatch))
      else if o.state = .FAILED ∨ o.state = .EXPIRED then (es, .done (.error .OrderClosed))
      else if o.expiresAt < now then (es, .attemptExpire o)
      else if vOk tx o then (es, .attemptVerify o)
      else (es, .attemptFail o)
  | .attemptExpire o =>
    match transition o.orderId .PENDING .EXPIRED none es.store with
    | .ok s' => ({ es with store := s' }, .done (.error .OrderExpired))
    | .error _ => (es, .start)
  | .attemptFail o =>
    match transition o.orderId .PENDING .FAILED none es.store with
    | .ok s' => ({ es with store := s' }, .done (.error .VerificationFailed))
    | .error _ => (es, .start)
  | .attemptVerify o =>
    match transition o.orderId .PENDING .VERIFIED none es.store with
    | .ok s' => ({ es with store := s' }, .invokeSink o)
    | .error _ => (es, .start)
  | .invokeSink o =>
    ({ es with sinkCalls := es.sinkCalls ++ [(o.userId, o.tier)] },
      if sinkOk then .finalize o else .done (.ok ⟨o.orderId, .VERIFIED⟩))
  | .finalize o =>
    match transition o.orderId .VERIFIED .ACTIVATED (some tx) es.store with
    | .ok s' => ({ es with store := s' }, .done (.ok ⟨o.orderId, .ACTIVATED⟩))
    | .error _ => (es, .done (.error .StaleState))
  | .done r => (es, .done r)

/-- Advance caller `i` of the configuration by one atomic step (no-op on an
out-of-range index). -/
def sysStep (key : OrderKey) (tx : String) (now : Nat) (vOk : String → Order → Bool)
    (sinkOk : Bool) (c : EngineState × List VPhase) (i : Nat) :
    EngineState × List VPhase :=
  match c.2[i]? with
  | none => c
  | some p =>
    let r := callerStep key tx now vOk sinkOk c.1 p
    (r.1, c.2.set i r.2)

/-- Run an arbitrary interleaving: the schedule names which caller takes the
next atomic step. -/
def sysRun (key : OrderKey) (tx : String) (now : Nat) (vOk : String → Order → Bool)
    (sinkOk : Bool) (sched : List Nat) (c : EngineState × List VPhase) :
    EngineState × List VPhase :=
  sched.foldl (sysStep key tx now vOk sinkOk) c

/-- The shape of the shared order record at each reachable state. -/
def ordAt (o₀ : Order) (tx : String) : OState → Order
  | .ACTIVATED => { o₀ with state := .ACTIVATED, activationTxId := some tx }
  | st => { o₀ with state := st }

def isInvoke : VPhase → Bool
  | .invokeSink _ => true
  | _ => false

def isFinalize : VPhase → Bool
  | .finalize _ => true
  | _ => false

def isDone : VPhase → Bool
  | .done _ => true
  | _ => false

/-- Fields of a caller's last-read order copy that its later compare-and-set
and sink arguments depend on. -/
def carriedOK (o₀ : Order) (o : Order) : Prop :=
  o.orderId = o₀.orderId ∧ o.userId = o₀.userId ∧ o.tier = o₀.tier

/-- Per-phase invariant: expiry/verification-failure phases are unreachable
under a live order with passing verification; winner phases carry a faithful
copy; finished callers hold the idempotent success result. -/
def phaseOK (o₀ : Order) : VPhase → Prop
  | .start => True
  | .attemptExpire _ => False
  | .attemptFail _ => False
  | .attemptVerify o => carriedOK o₀ o
  | .invokeSink o => carriedOK o₀ o
  | .finalize o => carriedOK o₀ o
  | .done r => r = .ok ⟨o₀.orderId, .ACTIVATED⟩

/-- Global invariant of the concurrent system for an initially `PENDING`,
unexpired order with passing verification: the store always holds `ordAt st`
for the current state `st`; at `PENDING` there is no winner and no sink call;
at `VERIFIED` exactly one winner exists (about to invoke the sink or to
finalize) and the sink log matches its progress; at `ACTIVATED` the sink was
invoked exactly once. -/
def concInv (key : OrderKey) (tx : String) (o₀ : Order)
    (c : EngineState × List VPhase) : Prop :=
  ∃ st : OState,
    aget c.1.store.orders o₀.orderId = some (ordAt o₀ tx st) ∧
    resolveOrder key c.1.store = some (ordAt o₀ tx st) ∧
    StoreWF c.1.store ∧
    (∀ p ∈ c.2, phaseOK o₀ p) ∧
    ((st = .PENDING ∧ c.2.countP isInvoke = 0 ∧ c.2.countP isFinalize = 0 ∧
        c.2.countP isDone = 0 ∧ c.1.sinkCalls = []) ∨
     (st = .VERIFIED ∧ c.2.countP isInvoke + c.2.countP isFinalize = 1 ∧
        c.2.countP isDone = 0 ∧
        c.1.sinkCalls = List.replicate (c.2.countP isFinalize) (o₀.userId, o₀.tier)) ∨
     (st = .ACTIVATED ∧ c.2.countP isInvoke = 0 ∧ c.2.countP isFinalize = 0 ∧
        c.1.sinkCalls = [(o₀.userId, o₀.tier)]))

theorem aget_aset_self {α β : Type} [DecidableEq α] (l : List (α × β)) (k : α) (v : β) :
    aget (aset l k v) k = some v := by
  induction l with
  | nil => simp [aget, aset]
  | cons h t ih =>
    obtain ⟨k', v'⟩ := h
    by_cases hk : k' = k <;> simp [aget, aset, hk, ih]

theorem aget_aset_ne {α β : Type} [DecidableEq α] (l : List (α × β)) (k k' : α) (v : β)
    (h : k ≠ k') : aget (aset l k v) k' = aget l k' := by
  induction l with
  | nil => simp [aget, aset, h]
  | cons hd t ih =>
    obtain ⟨k₀, v₀⟩ := hd
    by_cases hk : k₀ = k
    · subst hk
      simp [aget, aset, h]
    · simp [aget, aset, hk, ih]

theorem keysOK_aget {l : List (String × Order)} (h : storeKeysOK l = true) :
    ∀ oid o, aget l oid = some o → o.orderId = oid := by
  induction l with
  | nil => intro oid o hget; simp [aget] at hget
  | cons hd t ih =>
    obtain ⟨k, v⟩ := hd
    simp only [storeKeysOK, Bool.and_eq_true, decide_eq_true_eq] at h
    intro oid o hget
    simp only [aget] at hget
    by_cases hk : k = oid
    · rw [if_pos hk] at hget
      cases hget
      rw [← hk]; exact h.1
    · rw [if_neg hk] at hget
      exact ih h.2 oid o hget

theorem storeWF_of_keysOK {s : StoreState} (h : storeKeysOK s.orders = true) : StoreWF s :=
  fun oid o hget => keysOK_aget h oid o hget

theorem storeWF_aset {s : StoreState} (hwf : StoreWF s) (k : String) (v : Order)
    (hk : v.orderId = k) : StoreWF { s with orders := aset s.orders k v } := by
  intro oid o hget
  by_cases h : k = oid
  · subst h
    rw [aget_aset_self] at hget
    cases hget
    exact hk
  · rw [aget_aset_ne _ _ _ _ (fun he => h he)] at hget
    exact hwf oid o hget

theorem resolve_orderId {key : OrderKey} {s : StoreState} {o : Order}
    (hwf : StoreWF s) (h : resolveOrder key s = some o) :
    aget s.orders o.orderId = some o := by
  cases key with
  | byId oid =>
    simp only [resolveOrder, getByOrderId] at h
    rw [hwf oid o h]
    exact h
  | byRef p r =>
    simp only [resolveOrder, getByOrderId, getByProviderRef, Option.bind_eq_some] at h
    obtain ⟨oid, _, h2⟩ := h
    rw [hwf oid o h2]
    exact h2

theorem resolve_aset {key : OrderKey} {s : StoreState} {o : Order} (o' : Order)
    (hwf : StoreWF s) (h : resolveOrder key s = some o) :
    resolveOrder key { s with orders := aset s.orders o.orderId o' } = some o' := by
  cases key with
  | byId oid =>
    simp only [resolveOrder, getByOrderId] at h ⊢
    rw [hwf oid o h]
    exact aget_aset_self _ _ _
  | byRef p r =>
    simp only [resolveOrder, getByOrderId, getByProviderRef, Option.bind_eq_some] at h ⊢
    obtain ⟨oid, h1, h2⟩ := h
    refine ⟨oid, h1, ?_⟩
    rw [hwf oid o h2]
    exact aget_aset_self _ _ _

theorem resolve_aset_at {key : OrderKey} {s : StoreState} {o : Order} (o' : Order)
    (hwf : StoreWF s) (h : resolveOrder key s = some o) (k : String)
    (hk : o.orderId = k) :
    resolveOrder key { s with orders := aset s.orders k o' } = some o' := by
  subst hk
  exact resolve_aset o' hwf h

theorem create_ok_inv
    {freshId userId tier : String} {provider : Provider} {region : String}
    {a : Except EngineError (Option String × String)} {now ttl : Nat}
    {s s' : StoreState} {res : CreateResult}
    (h : createPaymentOrder freshId userId tier provider region a now ttl s = (.ok res, s')) :
    res.orderId = freshId ∧
    aget s.orders freshId = none ∧
    (∃ o : Order, o.orderId = freshId ∧ o.userId = userId ∧ o.state = .PENDING ∧
      s'.orders = aset s.orders freshId o) ∧
    s'.byUserPending = aset s.byUserPending userId freshId := by
  cases a with
  | error e => simp [createPaymentOrder] at h
  | ok pm =>
    obtain ⟨pref, meta⟩ := pm
    cases hget : aget s.orders freshId with
    | some o₀ => simp [createPaymentOrder, createOrder, hget] at h
    | none =>
      cases pref with
      | none =>
        simp only [createPaymentOrder, createOrder, hget, indexByUser, Prod.mk.injEq,
          Except.ok.injEq] at h
        obtain ⟨hres, hs⟩ := h
        subst hs
        refine ⟨by rw [← hres], rfl, ⟨_, rfl, rfl, rfl, rfl⟩, rfl⟩
      | some r =>
        cases href : aget s.byProviderRef (provider, r) with
        | none =>
          simp only [createPaymentOrder, createOrder, hget, indexByUser,
            indexByProviderRef, href, Prod.mk.injEq, Except.ok.injEq] at h
          obtain ⟨hres, hs⟩ := h
          subst hs
          refine ⟨by rw [← hres], rfl, ⟨_, rfl, rfl, rfl, rfl⟩, rfl⟩
        | some existing =>
          by_cases hex : existing = freshId
          · subst hex
            simp only [createPaymentOrder, createOrder, hget, indexByUser,
              indexByProviderRef, href, eq_self_iff_true, if_true, Prod.mk.injEq,
              Except.ok.injEq] at h
            obtain ⟨hres, hs⟩ := h
            subst hs
            refine ⟨by rw [← hres], rfl, ⟨_, rfl, rfl, rfl, rfl⟩, rfl⟩
          · simp [createPaymentOrder, createOrder, hget, indexByUser,
              indexByProviderRef, href, hex] at h

/-- Claim C4: a still-`PENDING` order whose `expiresAt` lies in the past fails
verification with `OrderExpired` and is transitioned to `EXPIRED`; every later
verification call on the same order then fails with `OrderClosed`. -/
theorem verify_expired_then_closed
    (es : EngineState) (key : OrderKey) (tx : String) (now : Nat)
    (vOk : String → Order → Bool) (sinkOk : Bool) (fuel : Nat) (o : Order)
    (hwf : StoreWF es.store)
    (hres : resolveOrder key es.store = some o)
    (hst : o.state = .PENDING)
    (hexp : o.expiresAt < now) :
    ∃ es' : EngineState,
      verifyAndActivatePayment (fuel + 1) key tx now vOk sinkOk es =
        (.error .OrderExpired, es') ∧
      (resolveOrder key es'.store).map Order.state = some .EXPIRED ∧
      es'.sinkCalls = es.sinkCalls ∧
      ∀ fuel' tx' now' vOk' sOk',
        verifyAndActivatePayment (fuel' + 1) key tx' now' vOk' sOk' es' =
          (.error .OrderClosed, es') := by
  have hget := resolve_orderId hwf hres
  have htr : transition o.orderId .PENDING .EXPIRED none es.store =
      .ok { es.store with
            orders := aset es.store.orders o.orderId { o with state := .EXPIRED } } := by
    simp [transition, hget, hst]
  refine ⟨{ es with store := { es.store with
      orders := aset es.store.orders o.orderId { o with state := .EXPIRED } } },
    ?_, ?_, rfl, ?_⟩
  · simp [verifyAndActivatePayment, hres, hst, hexp, htr]
  · rw [show ({ es with store := { es.store with
        orders := aset es.store.orders o.orderId { o with state := .EXPIRED } } } :
        EngineState).store =
        { es.store with
          orders := aset es.store.orders o.orderId { o with state := .EXPIRED } } from rfl,
      resolve_aset { o with state := .EXPIRED } hwf hres]
    rfl
  · intro fuel' tx' now' vOk' sOk'
    have hres2 := resolve_aset { o with state := .EXPIRED } hwf hres
    simp [verifyAndActivatePayment, hres2]

/-- Claim C4 witness. -/
theorem verify_expired_then_closed_witness :
    ∃ es' : EngineState,
      verifyAndActivatePayment 4 (.byId "o1") "tx1" 100 (fun _ _ => true) true
        ⟨sampleOneStore, []⟩ = (.error .OrderExpired, es') ∧
      (resolveOrder (.byId "o1") es'.store).map Order.state = some .EXPIRED ∧
      es'.sinkCalls = ([] : List (String × String)) ∧
      ∀ fuel' tx' now' vOk' sOk',
        verifyAndActivatePayment (fuel' + 1) (.byId "o1") tx' now' vOk' sOk' es' =
          (.error .OrderClosed, es') :=
  verify_expired_then_closed ⟨sampleOneStore, []⟩ (.byId "o1") "tx1" 100
    (fun _ _ => true) true 3 sampleOrderA (storeWF_of_keysOK (by decide)) (by decide)
    rfl (by decide)

theorem verify_on_activated
    (es : EngineState) (key : OrderKey) (tx : String) (now : Nat)
    (vOk : String → Order → Bool) (sinkOk : Bool) (fuel : Nat) (o : Order)
    (hres : resolveOrder key es.store = some o)
    (hst : o.state = .ACTIVATED)
    (htx : o.activationTxId = some tx) :
    verifyAndActivatePayment (fuel + 1) key tx now vOk sinkOk es =
      (.ok ⟨o.orderId, .ACTIVATED⟩, es) := by
  simp [verifyAndActivatePayment, hres, hst, htx]

/-- Claim C1: from a live `PENDING` order and passing provider verification, a
verification call activates exactly once — it returns `ACTIVATED` and appends
exactly one Activation Sink invocation — and a second call with the same
`(orderKey, transactionId)` returns the same terminal result with the engine
state (Activation Sink log included) unchanged. -/
theorem verify_idempotent_activation
    (es : EngineState) (key : OrderKey) (tx : String) (now : Nat)
    (vOk : String → Order → Bool) (fuel : Nat) (o : Order)
    (hwf : StoreWF es.store)
    (hres : resolveOrder key es.store = some o)
    (hst : o.state = .PENDING)
    (hexp : ¬ o.expiresAt < now)
    (hv : vOk tx o = true) :
    ∃ es' : EngineState,
      verifyAndActivatePayment (fuel + 1) key tx now vOk true es =
        (.ok ⟨o.orderId, .ACTIVATED⟩, es') ∧
      es'.sinkCalls = es.sinkCalls ++ [(o.userId, o.tier)] ∧
      ∀ fuel' : Nat,
        verifyAndActivatePayment (fuel' + 1) key tx now vOk true es' =
          (.ok ⟨o.orderId, .ACTIVATED⟩, es') := by
  have hget := resolve_orderId hwf hres
  have htr1 : transition o.orderId .PENDING .VERIFIED none es.store =
      .ok { es.store with
            orders := aset es.store.orders o.orderId { o with state := .VERIFIED } } := by
    simp [transition, hget, hst]
  have hgetV : aget (aset es.store.orders o.orderId { o with state := .VERIFIED })
      o.orderId = some { o with state := .VERIFIED } := aget_aset_self _ _ _
  have htr2 : transition o.orderId .VERIFIED .ACTIVATED (some tx)
      { es.store with
        orders := aset es.store.orders o.orderId { o with state := .VERIFIED } } =
      .ok { es.store with
            orders := aset (aset es.store.orders o.orderId { o with state := .VERIFIED })
              o.orderId { o with state := .ACTIVATED, activationTxId := some tx } } := by
    simp [transition, hgetV]
  have hwfV : StoreWF { es.store with
      orders := aset es.store.orders o.orderId { o with state := .VERIFIED } } :=
    storeWF_aset hwf o.orderId { o with state := .VERIFIED } rfl
  have hresV := resolve_aset { o with state := .VERIFIED } hwf hres
  have hresA := resolve_aset (s := { es.store with
      orders := aset es.store.orders o.orderId { o with state := .VERIFIED } })
    { o with state := .ACTIVATED, activationTxId := some tx } hwfV hresV
  refine ⟨⟨{ es.store with
      orders := aset (aset es.store.orders o.orderId { o with state := .VERIFIED })
        o.orderId { o with state := .ACTIVATED, activationTxId := some tx } },
    es.sinkCalls ++ [(o.userId, o.tier)]⟩, ?_, rfl, ?_⟩
  · simp [verifyAndActivatePayment, hres, hst, hexp, hv, htr1, htr2]
  · intro fuel'
    exact verify_on_activated _ _ _ _ _ _ fuel'
      { o with state := .ACTIVATED, activationTxId := some tx } hresA rfl rfl

/-- Claim C1 witness. -/
theorem verify_idempotent_activation_witness :
    ∃ es' : EngineState,
      verifyAndActivatePayment 4 (.byId "o1") "tx1" 5 (fun _ _ => true) true
        ⟨sampleOneStore, []⟩ = (.ok ⟨"o1", .ACTIVATED⟩, es') ∧
      es'.sinkCalls = [("u1", "daily")] ∧
      ∀ fuel' : Nat,
        verifyAndActivatePayment (fuel' + 1) (.byId "o1") "tx1" 5 (fun _ _ => true)
          true es' = (.ok ⟨"o1", .ACTIVATED⟩, es') :=
  verify_idempotent_activation ⟨sampleOneStore, []⟩ (.byId "o1") "tx1" 5
    (fun _ _ => true) 3 sampleOrderA (storeWF_of_keysOK (by decide)) (by decide)
    rfl (by decide) rfl

/-- Claim C5: on an order already `ACTIVATED` with recorded
`activationTxId = T1`, a verification call with a transaction id `T2 ≠ T1`
fails with `TransactionMismatch` and leaves the whole engine state — the order
record included — unchanged. -/
theorem verify_mismatch_no_mutation
    (es : EngineState) (key : OrderKey) (t1 t2 : String) (now : Nat)
    (vOk : String → Order → Bool) (sinkOk : Bool) (fuel : Nat) (o : Order)
    (hres : resolveOrder key es.store = some o)
    (hst : o.state = .ACTIVATED)
    (htx : o.activationTxId = some t1)
    (hne : t2 ≠ t1) :
    verifyAndActivatePayment (fuel + 1) key t2 now vOk sinkOk es =
      (.error .TransactionMismatch, es) := by
  have hne' : t1 ≠ t2 := fun h => hne h.symm
  simp [verifyAndActivatePayment, hres, hst, htx, hne']

/-- Claim C5 witness. -/
theorem verify_mismatch_no_mutation_witness :
    verifyAndActivatePayment 5 (.byId "o1") "tx2" 7 (fun _ _ => true) true
      sampleActivatedES = (.error .TransactionMismatch, sampleActivatedES) :=
  verify_mismatch_no_mutation sampleActivatedES (.byId "o1") "tx1" "tx2" 7
    (fun _ _ => true) true 4 sampleActivatedOrder (by decide) rfl rfl (by decide)

/-- Claim C6: when the Provider Adapter's `initiate` fails with
`ProviderUnavailable` or `InvalidRequest`, `createPaymentOrder` surfaces the
error to the caller and the Order Store is returned unchanged — no `Order`
record is persisted. -/
theorem create_adapter_failure_no_persist
    (freshId userId tier : String) (provider : Provider) (region : String)
    (now ttl : Nat) (s : StoreState) (e : EngineError)
    (he : e = .ProviderUnavailable ∨ e = .InvalidRequest) :
    createPaymentOrder freshId userId tier provider region (.error e) now ttl s =
      (.error e, s) := by
  cases he <;> simp [createPaymentOrder]

/-- Claim C6 witness. -/
theorem create_adapter_failure_no_persist_witness :
    createPaymentOrder "o9" "u1" "daily" .REDIRECT_CHECKOUT "KE"
      (.error .ProviderUnavailable) 5 1800 ⟨[], [], []⟩ =
      (.error .ProviderUnavailable, ⟨[], [], []⟩) :=
  create_adapter_failure_no_persist _ _ _ _ _ _ _ _ _ (Or.inl rfl)

/-- Claim C7: two sequential successful `createPaymentOrder` calls for the same
user leave `by_user_pending[userId]` pointing at the second order's id, while
the first order remains resolvable by its own order id. -/
theorem create_pending_supersession
    (id1 id2 u tier1 tier2 : String) (p1 p2 : Provider) (rg1 rg2 : String)
    (a1 a2 : Except EngineError (Option String × String))
    (n1 n2 ttl1 ttl2 : Nat) (s s1 s2 : StoreState) (res1 res2 : CreateResult)
    (h1 : createPaymentOrder id1 u tier1 p1 rg1 a1 n1 ttl1 s = (.ok res1, s1))
    (h2 : createPaymentOrder id2 u tier2 p2 rg2 a2 n2 ttl2 s1 = (.ok res2, s2)) :
    getByUserPending u s2 = some res2.orderId ∧
    ∃ o : Order, getByOrderId res1.orderId s2 = some o ∧
      o.orderId = res1.orderId ∧ o.userId = u := by
  obtain ⟨hid1, hfresh1, ⟨o1, ho1id, ho1u, _, hord1⟩, hbu1⟩ := create_ok_inv h1
  obtain ⟨hid2, hfresh2, ⟨o2, ho2id, ho2u, _, hord2⟩, hbu2⟩ := create_ok_inv h2
  have hne : id2 ≠ id1 := by
    intro he
    rw [he, hord1, aget_aset_self] at hfresh2
    exact Option.noConfusion hfresh2
  constructor
  · rw [getByUserPending, hbu2, aget_aset_self, hid2]
  · refine ⟨o1, ?_, by rw [ho1id, hid1], ho1u⟩
    rw [getByOrderId, hid1, hord2, aget_aset_ne _ _ _ _ hne, hord1, aget_aset_self]

/-- Claim C7 witness. -/
theorem create_pending_supersession_witness :
    getByUserPending "u1" sampleTwoStore = some "o2" ∧
    ∃ o : Order, getByOrderId "o1" sampleTwoStore = some o ∧
      o.orderId = "o1" ∧ o.userId = "u1" :=
  create_pending_supersession "o1" "o2" "u1" "daily" "weekly"
    .PUSH_TO_PAY .MANUAL_REFERENCE "KE" "KE" (.ok (some "r1", "m1")) (.ok (none, "m2"))
    0 1 60 60 ⟨[], [], []⟩ sampleOneStore sampleTwoStore
    ⟨"o1", some "r1", "m1"⟩ ⟨"o2", none, "m2"⟩ (by decide) (by decide)

theorem advanceOK_refl (s : StoreState) : AdvanceOK s s := by
  intro k o o' h h'
  rw [h] at h'
  cases h'
  exact Relation.ReflTransGen.refl

theorem presOK_refl (s : StoreState) : PresOK s s := fun _ o h => ⟨o, h⟩

theorem advanceOK_trans {s s' s'' : StoreState} (h1 : AdvanceOK s s')
    (h2 : AdvanceOK s' s'') (hp : PresOK s s') : AdvanceOK s s'' := by
  intro k o o'' ho ho''
  obtain ⟨o', ho'⟩ := hp k o ho
  exact (h1 k o o' ho ho').trans (h2 k o' o'' ho' ho'')

theorem presOK_trans {s s' s'' : StoreState} (h1 : PresOK s s') (h2 : PresOK s' s'') :
    PresOK s s'' := by
  intro k o ho
  obtain ⟨o', ho'⟩ := h1 k o ho
  exact h2 k o' ho'

theorem transition_ok_advanceOK {oid : String} {fs ts : OState} {tid : Option String}
    {s s' : StoreState} (h : transition oid fs ts tid s = .ok s')
    (hstep : allowedStep fs ts = true) : AdvanceOK s s' ∧ PresOK s s' := by
  cases hget : aget s.orders oid with
  | none => simp [transition, hget] at h
  | some o₀ =>
    by_cases hst : o₀.state = fs
    · simp only [transition, hget, if_pos hst, Except.ok.injEq] at h
      obtain ⟨onew, hts, hs'⟩ : ∃ onew : Order, onew.state = ts ∧
          s' = { s with orders := aset s.orders oid onew } := ⟨_, rfl, h.symm⟩
      subst hs'
      constructor
      · intro k o o' ho ho'
        have ho2 : aget (aset s.orders oid onew) k = some o' := ho'
        by_cases hk : oid = k
        · subst hk
          rw [hget] at ho
          cases ho
          rw [aget_aset_self] at ho2
          cases ho2
          rw [hst, hts]
          exact Relation.ReflTransGen.single hstep
        · rw [aget_aset_ne _ _ _ _ hk, ho] at ho2
          cases ho2
          exact Relation.ReflTransGen.refl
      · intro k o ho
        have hex : ∃ o', aget (aset s.orders oid onew) k = some o' := by
          by_cases hk : oid = k
          · subst hk
            exact ⟨onew, aget_aset_self _ _ _⟩
          · rw [aget_aset_ne _ _ _ _ hk]
            exact ⟨o, ho⟩
        exact hex
    · simp [transition, hget, hst] at h

theorem aset_fresh_ok {s : StoreState} (s2 : StoreState) (fid : String) (onew : Order)
    (hfresh : aget s.orders fid = none) (h2 : s2.orders = aset s.orders fid onew) :
    AdvanceOK s s2 ∧ PresOK s s2 := by
  constructor
  · intro k o o' ho ho'
    rw [h2] at ho'
    by_cases hk : fid = k
    · subst hk
      rw [hfresh] at ho
      cases ho
    · rw [aget_aset_ne _ _ _ _ hk, ho] at ho'
      cases ho'
      exact Relation.ReflTransGen.refl
  · intro k o ho
    rw [h2]
    by_cases hk : fid = k
    · subst hk
      rw [hfresh] at ho
      cases ho
    · rw [aget_aset_ne _ _ _ _ hk]
      exact ⟨o, ho⟩

theorem create_advanceOK (fid u t : String) (p : Provider) (r : String)
    (a : Except EngineError (Option String × String)) (now ttl : Nat) (s : StoreState) :
    AdvanceOK s (createPaymentOrder fid u t p r a now ttl s).2 ∧
    PresOK s (createPaymentOrder fid u t p r a now ttl s).2 := by
  cases a with
  | error e =>
    simp only [createPaymentOrder]
    exact ⟨advanceOK_refl s, presOK_refl s⟩
  | ok pm =>
    obtain ⟨pref, meta⟩ := pm
    cases hget : aget s.orders fid with
    | some o₀ =>
      simp only [createPaymentOrder, createOrder, hget]
      exact ⟨advanceOK_refl s, presOK_refl s⟩
    | none =>
      have horders : (createPaymentOrder fid u t p r (.ok (pref, meta)) now ttl s).2.orders =
          aset s.orders fid
            { orderId := fid, userId := u, tier := t, provider := p, region := r,
              providerRef := pref, metadata := meta, state := .PENDING,
              createdAt := now, expiresAt := now + ttl, activationTxId := none } := by
        cases pref with
        | none => simp [createPaymentOrder, createOrder, hget, indexByUser]
        | some rr =>
          cases href : aget s.byProviderRef (p, rr) with
          | none =>
            simp [createPaymentOrder, createOrder, hget, indexByUser,
              indexByProviderRef, href]
          | some ex =>
            by_cases hex : ex = fid <;>
              simp [createPaymentOrder, createOrder, hget, indexByUser,
                indexByProviderRef, href, hex]
      exact aset_fresh_ok _ fid _ hget horders

theorem verify_advanceOK (fuel : Nat) (key : OrderKey) (tx : String) (now : Nat)
    (vOk : String → Order → Bool) (sOk : Bool) : ∀ es : EngineState,
    AdvanceOK es.store (verifyAndActivatePayment fuel key tx now vOk sOk es).2.store ∧
    PresOK es.store (verifyAndActivatePayment fuel key tx now vOk sOk es).2.store := by
  induction fuel with
  | zero =>
    intro es
    simp only [verifyAndActivatePayment]
    exact ⟨advanceOK_refl _, presOK_refl _⟩
  | succ n ih =>
    intro es
    cases hres : resolveOrder key es.store with
    | none =>
      simp only [verifyAndActivatePayment, hres]
      exact ⟨advanceOK_refl _, presOK_refl _⟩
    | some o =>
      by_cases h1 : o.state = .ACTIVATED
      · by_cases h2 : o.activationTxId = some tx
        · simp only [verifyAndActivatePayment, hres, if_pos h1, if_pos h2]
          exact ⟨advanceOK_refl _, presOK_refl _⟩
        · simp only [verifyAndActivatePayment, hres, if_pos h1, if_neg h2]
          exact ⟨advanceOK_refl _, presOK_refl _⟩
      · by_cases h2 : o.state = .FAILED ∨ o.state = .EXPIRED
        · simp only [verifyAndActivatePayment, hres, if_neg h1, if_pos h2]
          exact ⟨advanceOK_refl _, presOK_refl _⟩
        · by_cases h3 : o.expiresAt < now
          · cases htr : transition o.orderId .PENDING .EXPIRED none es.store with
            | ok s' =>
              simp only [verifyAndActivatePayment, hres, if_neg h1, if_neg h2,
                if_pos h3, htr]
              exact transition_ok_advanceOK htr rfl
            | error e =>
              simp only [verifyAndActivatePayment, hres, if_neg h1, if_neg h2,
                if_pos h3, htr]
              exact ih es
          · by_cases h4 : vOk tx o = true
            · cases htr : transition o.orderId .PENDING .VERIFIED none es.store with
              | error e =>
                simp only [verifyAndActivatePayment, hres, if_neg h1, if_neg h2,
                  if_neg h3, if_pos h4, htr]
                exact ih es
              | ok s' =>
                cases sOk with
                | false =>
                  simp only [verifyAndActivatePayment, hres, if_neg h1, if_neg h2,
                    if_neg h3, if_pos h4, htr, Bool.false_eq_true, if_false]
                  exact transition_ok_advanceOK htr rfl
                | true =>
                  cases htr2 : transition o.orderId .VERIFIED .ACTIVATED (some tx) s' with
                  | ok s'' =>
                    simp only [verifyAndActivatePayment, hres, if_neg h1, if_neg h2,
                      if_neg h3, if_pos h4, htr, htr2, if_pos (rfl : (true : Bool) = true)]
                    have a1 := transition_ok_advanceOK htr rfl
                    have a2 := transition_ok_advanceOK htr2 rfl
                    exact ⟨advanceOK_trans a1.1 a2.1 a1.2, presOK_trans a1.2 a2.2⟩
                  | error e =>
                    simp only [verifyAndActivatePayment, hres, if_neg h1, if_neg h2,
                      if_neg h3, if_pos h4, htr, htr2, if_pos (rfl : (true : Bool) = true)]
                    exact transition_ok_advanceOK htr rfl
            · cases htr : transition o.orderId .PENDING .FAILED none es.store with
              | ok s' =>
                simp only [verifyAndActivatePayment, hres, if_neg h1, if_neg h2,
                  if_neg h3, if_neg h4, htr]
                exact transition_ok_advanceOK htr rfl
              | error e =>
                simp only [verifyAndActivatePayment, hres, if_neg h1, if_neg h2,
                  if_neg h3, if_neg h4, htr]
                exact ih es

theorem applyOp_advanceOK (op : EngineOp) (es : EngineState) :
    AdvanceOK es.store (applyOp es op).store ∧ PresOK es.store (applyOp es op).store := by
  cases op with
  | create fid u t p r a now ttl => exact create_advanceOK fid u t p r a now ttl es.store
  | verify fuel key tx now vOk sOk => exact verify_advanceOK fuel key tx now vOk sOk es

theorem foldl_advanceOK (ops : List EngineOp) : ∀ es : EngineState,
    AdvanceOK es.store ((ops.foldl applyOp es).store) ∧
    PresOK es.store ((ops.foldl applyOp es).store) := by
  induction ops with
  | nil => intro es; exact ⟨advanceOK_refl _, presOK_refl _⟩
  | cons op t ih =>
    intro es
    have h1 := applyOp_advanceOK op es
    have h2 := ih (applyOp es op)
    exact ⟨advanceOK_trans h1.1 h2.1 h1.2, presOK_trans h1.2 h2.2⟩

theorem advance_from_terminal {a b : OState} (h : Advance a b)
    (ha : a = .ACTIVATED ∨ a = .FAILED ∨ a = .EXPIRED) : b = a := by
  rcases h.cases_head with rfl | ⟨c, hac, _⟩
  · rfl
  · rcases ha with rfl | rfl | rfl <;> simp [allowedStep] at hac

/-- Claim C3: across any sequence of engine operations, every order's state
only advances along the forward edges `PENDING → VERIFIED → ACTIVATED`,
`PENDING → FAILED`, `PENDING → EXPIRED`, and no operation ever moves an order
out of a terminal state (`ACTIVATED`, `FAILED`, `EXPIRED`). -/
theorem engine_states_monotonic
    (ops : List EngineOp) (es : EngineState) (oid : String) (o o' : Order)
    (h : aget es.store.orders oid = some o)
    (h' : aget (ops.foldl applyOp es).store.orders oid = some o') :
    Advance o.state o'.state ∧
    ((o.state = .ACTIVATED ∨ o.state = .FAILED ∨ o.state = .EXPIRED) →
      o'.state = o.state) := by
  have hadv := (foldl_advanceOK ops es).1 oid o o' h h'
  exact ⟨hadv, fun ht => advance_from_terminal hadv ht⟩

/-- Claim C3 witness. -/
theorem engine_states_monotonic_witness :
    Advance OState.PENDING OState.ACTIVATED ∧
    ((OState.PENDING = OState.ACTIVATED ∨ OState.PENDING = OState.FAILED ∨
        OState.PENDING = OState.EXPIRED) →
      OState.ACTIVATED = OState.PENDING) :=
  engine_states_monotonic [.verify 3 (.byId "o1") "tx1" 5 (fun _ _ => true) true]
    ⟨sampleOneStore, []⟩ "o1" sampleOrderA
    { sampleOrderA with state := .ACTIVATED, activationTxId := some "tx1" }
    (by decide) (by decide)

/-- Claim C8: the `/webhook` route always responds with HTTP status 200 — the
catch branch also responds 200 (with `processed: false`) — so the endpoint
never signals a retryable failure to the sender. -/
theorem webhook_always_200 (update : TgUpdate) (queueR hincrR expireR : Except String Unit) :
    (webhookHandler update queueR hincrR expireR).status = 200 := by
  unfold webhookHandler
  cases webhookTryBlock update queueR hincrR expireR <;> rfl

/-- Claim C9: tier resolution is total and fails closed — an absent user id or
a throwing Redis tier lookup yields tier "free" and the free rate limiter,
which is the most restrictive one; an error never grants a higher-tier limit. -/
theorem tier_resolution_fails_closed
    (userId : Option String) (cacheLookup : Except String (Option String))
    (h : absentUserId userId = true ∨ ∃ e, cacheLookup = .error e) :
    getUserTier userId cacheLookup = "free" ∧
    tierBasedRateLimiter userId cacheLookup = .free ∧
    ∀ l : RateLimiter, limiterMax .free ≤ limiterMax l := by
  have hfree : getUserTier userId cacheLookup = "free" := by
    rcases h with h | ⟨e, he⟩
    · simp [getUserTier, h]
    · subst he
      unfold getUserTier
      split
      · rfl
      · rfl
  refine ⟨hfree, ?_, ?_⟩
  · simp [tierBasedRateLimiter, hfree]
  · intro l
    cases l <;> simp [limiterMax]

/-- Claim C9 witness. -/
theorem tier_resolution_fails_closed_witness :
    getUserTier none (.ok (some "vvip")) = "free" ∧
    tierBasedRateLimiter none (.ok (some "vvip")) = .free ∧
    ∀ l : RateLimiter, limiterMax .free ≤ limiterMax l :=
  tier_resolution_fails_closed none (.ok (some "vvip")) (Or.inl rfl)

/-- Claim C10: `handleMessage` is total at its interface — it returns null
whenever the update contains neither `message` nor `edited_message`, and every
internal error path is caught and also yields null instead of throwing. -/
theorem handleMessage_total
    (update : BotUpdate) (inner : BotMessage → Except String (Option BotReply)) :
    (update.message = none ∧ update.edited_message = none →
      handleMessage update inner = none) ∧
    (∀ m e, update.message.orElse (fun _ => update.edited_message) = some m →
      inner m = .error e → handleMessage update inner = none) := by
  constructor
  · rintro ⟨h1, h2⟩
    simp [handleMessage, h1, h2]
  · intro m e hm he
    simp [handleMessage, hm, he]

/-- Claim C10 witness. -/
theorem handleMessage_total_witness :
    handleMessage ⟨none, none⟩ (fun _ => .ok none) = none :=
  (handleMessage_total ⟨none, none⟩ (fun _ => .ok none)).1 ⟨rfl, rfl⟩

theorem ordAt_state (o₀ : Order) (tx : String) (st : OState) :
    (ordAt o₀ tx st).state = st := by cases st <;> rfl

theorem ordAt_orderId (o₀ : Order) (tx : String) (st : OState) :
    (ordAt o₀ tx st).orderId = o₀.orderId := by cases st <;> rfl

theorem ordAt_userId (o₀ : Order) (tx : String) (st : OState) :
    (ordAt o₀ tx st).userId = o₀.userId := by cases st <;> rfl

theorem ordAt_tier (o₀ : Order) (tx : String) (st : OState) :
    (ordAt o₀ tx st).tier = o₀.tier := by cases st <;> rfl

theorem ordAt_expiresAt (o₀ : Order) (tx : String) (st : OState) :
    (ordAt o₀ tx st).expiresAt = o₀.expiresAt := by cases st <;> rfl

theorem ordAt_activatedTx (o₀ : Order) (tx : String) :
    (ordAt o₀ tx .ACTIVATED).activationTxId = some tx := rfl

theorem ordAt_self (o₀ : Order) (tx : String) (h : o₀.state = .PENDING) :
    ordAt o₀ tx .PENDING = o₀ := by
  cases o₀
  cases h
  rfl

theorem concInv_step
    (key : OrderKey) (tx : String) (now : Nat) (vOk : String → Order → Bool)
    (o₀ : Order) (hexp : ¬ o₀.expiresAt < now)
    (hv : ∀ st : OState, vOk tx (ordAt o₀ tx st) = true)
    (c : EngineState × List VPhase) (i : Nat)
    (hinv : concInv key tx o₀ c) :
    concInv key tx o₀ (sysStep key tx now vOk true c i) := by
  obtain ⟨st, hstore, hres, hwf, hph, hcase⟩ := hinv
  cases hgi : c.2[i]? with
  | none =>
    have hstep : sysStep key tx now vOk true c i = c := by
      simp [sysStep, hgi]
    rw [hstep]
    exact ⟨st, hstore, hres, hwf, hph, hcase⟩
  | some p =>
    have hmem : p ∈ c.2 := List.getElem?_mem hgi
    have hlt : i < c.2.length := (List.getElem?_eq_some.mp hgi).1
    have hgeti : c.2[i] = p := (List.getElem?_eq_some.mp hgi).2
    have hpOK := hph p hmem
    have hcnt : ∀ (q : VPhase → Bool) (b : VPhase),
        (c.2.set i b).countP q =
          c.2.countP q - (if q p then 1 else 0) + (if q b then 1 else 0) := by
      intro q b
      rw [List.countP_set q c.2 i b hlt, hgeti]
    have hcnt0 : ∀ (q : VPhase → Bool) (b : VPhase), q p = false → q b = false →
        (c.2.set i b).countP q = c.2.countP q := by
      intro q b hp hb
      rw [hcnt q b, hp, hb]
      simp
    have hcntP : ∀ (q : VPhase → Bool) (b : VPhase), q p = false → q b = true →
        (c.2.set i b).countP q = c.2.countP q + 1 := by
      intro q b hp hb
      rw [hcnt q b, hp, hb]
      simp
    have hcntM : ∀ (q : VPhase → Bool) (b : VPhase), q p = true → q b = false →
        (c.2.set i b).countP q = c.2.countP q - 1 := by
      intro q b hp hb
      rw [hcnt q b, hp, hb]
      simp
    have hphset : ∀ b : VPhase, phaseOK o₀ b → ∀ q ∈ c.2.set i b, phaseOK o₀ q := by
      intro b hb q hq
      rcases List.mem_or_eq_of_mem_set hq with h | rfl
      · exact hph q h
      · exact hb
    cases p with
    | attemptExpire o => exact hpOK.elim
    | attemptFail o => exact hpOK.elim
    | start =>
      rcases hcase with ⟨hst, hI, hF, hD, hS⟩ | ⟨hst, hIF, hD, hS⟩ | ⟨hst, hI, hF, hS⟩
      · subst hst
        have hstep : sysStep key tx now vOk true c i =
            (c.1, c.2.set i (.attemptVerify (ordAt o₀ tx .PENDING))) := by
          simp [sysStep, hgi, callerStep, hres, ordAt_state, ordAt_expiresAt, hexp, hv]
        rw [hstep]
        refine ⟨.PENDING, hstore, hres, hwf,
          hphset _ ⟨ordAt_orderId _ _ _, ordAt_userId _ _ _, ordAt_tier _ _ _⟩,
          Or.inl ⟨rfl, ?_, ?_, ?_, hS⟩⟩
        · simp only [hcnt, isInvoke]
          simpa using hI
        · simp only [hcnt, isFinalize]
          simpa using hF
        · simp only [hcnt, isDone]
          simpa using hD
      · subst hst
        have hstep : sysStep key tx now vOk true c i =
            (c.1, c.2.set i (.attemptVerify (ordAt o₀ tx .VERIFIED))) := by
          simp [sysStep, hgi, callerStep, hres, ordAt_state, ordAt_expiresAt, hexp, hv]
        rw [hstep]
        refine ⟨.VERIFIED, hstore, hres, hwf,
          hphset _ ⟨ordAt_orderId _ _ _, ordAt_userId _ _ _, ordAt_tier _ _ _⟩,
          Or.inr (Or.inl ⟨rfl, ?_, ?_, ?_⟩)⟩
        · simp only [hcnt, isInvoke, isFinalize]
          simpa using hIF
        · simp only [hcnt, isDone]
          simpa using hD
        · simp only [hcnt, isFinalize]
          simpa using hS
      · subst hst
        have hstep : sysStep key tx now vOk true c i =
            (c.1, c.2.set i (.done (.ok ⟨(ordAt o₀ tx .ACTIVATED).orderId,
              .ACTIVATED⟩))) := by
          simp [sysStep, hgi, callerStep, hres, ordAt_state, ordAt_activatedTx]
        rw [hstep]
        refine ⟨.ACTIVATED, hstore, hres, hwf, hphset _ ?_,
          Or.inr (Or.inr ⟨rfl, ?_, ?_, hS⟩)⟩
        · show (.ok ⟨(ordAt o₀ tx .ACTIVATED).orderId, .ACTIVATED⟩ :
            Except EngineError VerifyResult) = .ok ⟨o₀.orderId, .ACTIVATED⟩
          rw [ordAt_orderId]
        · simp only [hcnt, isInvoke, isDone]
          simpa using hI
        · simp only [hcnt, isFinalize, isDone]
          simpa using hF
    | attemptVerify o =>
      obtain ⟨hoid, hou, hot⟩ := hpOK
      rcases hcase with ⟨hst, hI, hF, hD, hS⟩ | ⟨hst, hIF, hD, hS⟩ | ⟨hst, hI, hF, hS⟩
      · subst hst
        have htr : transition o.orderId .PENDING .VERIFIED none c.1.store =
            .ok { c.1.store with
                  orders := aset c.1.store.orders o₀.orderId (ordAt o₀ tx .VERIFIED) } := by
          rw [hoid]
          simp only [transition, hstore, ordAt_state]
          rfl
        have hstep : sysStep key tx now vOk true c i =
            ({ c.1 with store := { c.1.store with
                orders := aset c.1.store.orders o₀.orderId (ordAt o₀ tx .VERIFIED) } },
              c.2.set i (.invokeSink o)) := by
          simp [sysStep, hgi, callerStep, htr]
        rw [hstep]
        refine ⟨.VERIFIED, aget_aset_self _ _ _,
          resolve_aset_at (ordAt o₀ tx .VERIFIED) hwf hres _ (ordAt_orderId _ _ _),
          storeWF_aset hwf o₀.orderId _ (ordAt_orderId _ _ _),
          hphset _ ⟨hoid, hou, hot⟩, Or.inr (Or.inl ⟨rfl, ?_, ?_, ?_⟩)⟩
        · simp only [hcnt, isInvoke, isFinalize]
          simp only [hI, hF]
          simp
        · simp only [hcnt, isDone]
          simpa using hD
        · simp only [hcnt, isFinalize]
          simp only [hF]
          simpa using hS
      · subst hst
        have htr : transition o.orderId .PENDING .VERIFIED none c.1.store =
            .error .StaleState := by
          rw [hoid]
          simp [transition, hstore, ordAt_state]
        have hstep : sysStep key tx now vOk true c i = (c.1, c.2.set i .start) := by
          simp [sysStep, hgi, callerStep, htr]
        rw [hstep]
        refine ⟨.VERIFIED, hstore, hres, hwf, hphset _ trivial,
          Or.inr (Or.inl ⟨rfl, ?_, ?_, ?_⟩)⟩
        · simp only [hcnt, isInvoke, isFinalize]
          simpa using hIF
        · simp only [hcnt, isDone]
          simpa using hD
        · simp only [hcnt, isFinalize]
          simpa using hS
      · subst hst
        have htr : transition o.orderId .PENDING .VERIFIED none c.1.store =
            .error .StaleState := by
          rw [hoid]
          simp [transition, hstore, ordAt_state]
        have hstep : sysStep key tx now vOk true c i = (c.1, c.2.set i .start) := by
          simp [sysStep, hgi, callerStep, htr]
        rw [hstep]
        refine ⟨.ACTIVATED, hstore, hres, hwf, hphset _ trivial,
          Or.inr (Or.inr ⟨rfl, ?_, ?_, hS⟩)⟩
        · simp only [hcnt, isInvoke]
          simpa using hI
        · simp only [hcnt, isFinalize]
          simpa using hF
    | invokeSink o =>
      obtain ⟨hoid, hou, hot⟩ := hpOK
      have hpos : 0 < c.2.countP isInvoke :=
        List.countP_pos_iff.mpr ⟨.invokeSink o, hmem, rfl⟩
      rcases hcase with ⟨hst, hI, hF, hD, hS⟩ | ⟨hst, hIF, hD, hS⟩ | ⟨hst, hI, hF, hS⟩
      · rw [hI] at hpos; omega
      · subst hst
        have hIv : c.2.countP isInvoke = 1 := by omega
        have hFv : c.2.countP isFinalize = 0 := by omega
        rw [hFv] at hS
        simp only [List.replicate] at hS
        have hstep : sysStep key tx now vOk true c i =
            ({ c.1 with sinkCalls := c.1.sinkCalls ++ [(o.userId, o.tier)] },
              c.2.set i (.finalize o)) := by
          simp [sysStep, hgi, callerStep]
        rw [hstep]
        refine ⟨.VERIFIED, hstore, hres, hwf, hphset _ ⟨hoid, hou, hot⟩,
          Or.inr (Or.inl ⟨rfl, ?_, ?_, ?_⟩)⟩
        · simp only [hcnt, isInvoke, isFinalize]
          simp only [hIv, hFv]
          simp
        · simp only [hcnt, isDone]
          simpa using hD
        · simp only [hcnt, isFinalize]
          simp only [hFv]
          simp [hS, hou, hot, List.replicate]
      · rw [hI] at hpos; omega
    | finalize o =>
      obtain ⟨hoid, hou, hot⟩ := hpOK
      have hpos : 0 < c.2.countP isFinalize :=
        List.countP_pos_iff.mpr ⟨.finalize o, hmem, rfl⟩
      rcases hcase with ⟨hst, hI, hF, hD, hS⟩ | ⟨hst, hIF, hD, hS⟩ | ⟨hst, hI, hF, hS⟩
      · rw [hF] at hpos; omega
      · subst hst
        have hIv : c.2.countP isInvoke = 0 := by omega
        have hFv : c.2.countP isFinalize = 1 := by omega
        rw [hFv] at hS
        simp only [List.replicate] at hS
        have htr : transition o.orderId .VERIFIED .ACTIVATED (some tx) c.1.store =
            .ok { c.1.store with
                  orders := aset c.1.store.orders o₀.orderId (ordAt o₀ tx .ACTIVATED) } := by
          rw [hoid]
          simp only [transition, hstore, ordAt_state]
          rfl
        have hstep : sysStep key tx now vOk true c i =
            ({ c.1 with store := { c.1.store with
                orders := aset c.1.store.orders o₀.orderId (ordAt o₀ tx .ACTIVATED) } },
              c.2.set i (.done (.ok ⟨o.orderId, .ACTIVATED⟩))) := by
          simp [sysStep, hgi, callerStep, htr]
        rw [hstep]
        refine ⟨.ACTIVATED, aget_aset_self _ _ _,
          resolve_aset_at (ordAt o₀ tx .ACTIVATED) hwf hres _ (ordAt_orderId _ _ _),
          storeWF_aset hwf o₀.orderId _ (ordAt_orderId _ _ _),
          hphset _ ?_, Or.inr (Or.inr ⟨rfl, ?_, ?_, ?_⟩)⟩
        · show (.ok ⟨o.orderId, .ACTIVATED⟩ : Except EngineError VerifyResult) =
            .ok ⟨o₀.orderId, .ACTIVATED⟩
          rw [hoid]
        · simp only [hcnt, isInvoke, isDone]
          simpa using hIv
        · simp only [hcnt, isFinalize, isDone]
          simp only [hFv]
          simp
        · exact hS
      · rw [hF] at hpos; omega
    | done r =>
      have hstep : sysStep key tx now vOk true c i = (c.1, c.2.set i (.done r)) := by
        simp [sysStep, hgi, callerStep]
      rw [hstep]
      have hsame : ∀ (q : VPhase → Bool), (c.2.set i (.done r)).countP q =
          c.2.countP q := by
        intro q
        rw [hcnt]
        cases hq : q (.done r) with
        | false => simp [hq]
        | true =>
          have hq1 : 0 < c.2.countP q := List.countP_pos_iff.mpr ⟨.done r, hmem, hq⟩
          simp
          omega
      refine ⟨st, hstore, hres, hwf, hphset _ hpOK, ?_⟩
      rcases hcase with ⟨h1, h2, h3, h4, h5⟩ | ⟨h1, h2, h3, h4⟩ | ⟨h1, h2, h3, h4⟩
      · exact Or.inl ⟨h1, by rw [hsame]; exact h2, by rw [hsame]; exact h3,
          by rw [hsame]; exact h4, h5⟩
      · exact Or.inr (Or.inl ⟨h1, by simp only [hsame]; exact h2,
          by rw [hsame]; exact h3, by simp only [hsame]; exact h4⟩)
      · exact Or.inr (Or.inr ⟨h1, by rw [hsame]; exact h2,
          by rw [hsame]; exact h3, h4⟩)

theorem concInv_run (key : OrderKey) (tx : String) (now : Nat)
    (vOk : String → Order → Bool) (o₀ : Order) (hexp : ¬ o₀.expiresAt < now)
    (hv : ∀ st : OState, vOk tx (ordAt o₀ tx st) = true)
    (sched : List Nat) : ∀ c, concInv key tx o₀ c →
    concInv key tx o₀ (sysRun key tx now vOk true sched c) := by
  induction sched with
  | nil => intro c h; exact h
  | cons i t ih =>
    intro c h
    exact ih _ (concInv_step key tx now vOk o₀ hexp hv c i h)

theorem sysStep_len (key : OrderKey) (tx : String) (now : Nat)
    (vOk : String → Order → Bool) (sOk : Bool) (c : EngineState × List VPhase)
    (i : Nat) : (sysStep key tx now vOk sOk c i).2.length = c.2.length := by
  unfold sysStep
  cases hgi : c.2[i]? with
  | none => rfl
  | some p => simp [List.length_set]

theorem sysRun_len (key : OrderKey) (tx : String) (now : Nat)
    (vOk : String → Order → Bool) (sOk : Bool) (sched : List Nat) :
    ∀ c : EngineState × List VPhase,
    (sysRun key tx now vOk sOk sched c).2.length = c.2.length := by
  induction sched with
  | nil => intro c; rfl
  | cons i t ih =>
    intro c
    have h1 : sysRun key tx now vOk sOk (i :: t) c =
        sysRun key tx now vOk sOk t (sysStep key tx now vOk sOk c i) := rfl
    rw [h1, ih, sysStep_len]

/-- Claim C2: for any number of concurrent `verifyAndActivatePayment` callers
on the same live `PENDING` order and transaction id, and any interleaving of
their atomic store operations after which all callers have finished, exactly
one caller won the `PENDING → VERIFIED` compare-and-set and the Activation
Sink was invoked exactly once, while every caller finished with the same
successful idempotent `ACTIVATED` result. -/
theorem concurrent_verify_exactly_once
    (key : OrderKey) (tx : String) (now : Nat) (vOk : String → Order → Bool)
    (o₀ : Order) (s₀ : StoreState) (n : Nat) (sched : List Nat)
    (hwf : StoreWF s₀)
    (hstore : aget s₀.orders o₀.orderId = some o₀)
    (hres : resolveOrder key s₀ = some o₀)
    (hst : o₀.state = .PENDING)
    (hexp : ¬ o₀.expiresAt < now)
    (hv : ∀ st : OState, vOk tx (ordAt o₀ tx st) = true)
    (hn : 0 < n)
    (hdone : ∀ p ∈ (sysRun key tx now vOk true sched
        (⟨s₀, []⟩, List.replicate n .start)).2, isDone p = true) :
    (sysRun key tx now vOk true sched (⟨s₀, []⟩, List.replicate n .start)).1.sinkCalls =
      [(o₀.userId, o₀.tier)] ∧
    ∀ p ∈ (sysRun key tx now vOk true sched (⟨s₀, []⟩, List.replicate n .start)).2,
      p = .done (.ok ⟨o₀.orderId, .ACTIVATED⟩) := by
  have hinit : concInv key tx o₀ (⟨s₀, []⟩, List.replicate n .start) := by
    refine ⟨.PENDING, ?_, ?_, hwf, ?_, Or.inl ⟨rfl, ?_, ?_, ?_, rfl⟩⟩
    · rw [ordAt_self o₀ tx hst]; exact hstore
    · rw [ordAt_self o₀ tx hst]; exact hres
    · intro p hp
      rw [List.eq_of_mem_replicate hp]
      trivial
    · simp [List.countP_replicate, isInvoke]
    · simp [List.countP_replicate, isFinalize]
    · simp [List.countP_replicate, isDone]
  obtain ⟨st, hstoreE, hresE, hwfE, hphE, hcaseE⟩ :=
    concInv_run key tx now vOk o₀ hexp hv sched _ hinit
  have hlen : (sysRun key tx now vOk true sched
      (⟨s₀, []⟩, List.replicate n .start)).2.length = n := by
    rw [sysRun_len]
    exact List.length_replicate _ _
  have hdcnt : (sysRun key tx now vOk true sched
      (⟨s₀, []⟩, List.replicate n .start)).2.countP isDone = n :=
    (List.countP_eq_length.mpr hdone).trans hlen
  rcases hcaseE with ⟨hstE, hI, hF, hD, hS⟩ | ⟨hstE, hIF, hD, hS⟩ | ⟨hstE, hI, hF, hS⟩
  · rw [hD] at hdcnt; omega
  · rw [hD] at hdcnt; omega
  · refine ⟨hS, ?_⟩
    intro p hp
    have hd := hdone p hp
    have hph := hphE p hp
    cases p with
    | done r =>
      have hr : r = .ok ⟨o₀.orderId, .ACTIVATED⟩ := hph
      rw [hr]
    | start => simp [isDone] at hd
    | attemptExpire o => simp [isDone] at hd
    | attemptFail o => simp [isDone] at hd
    | attemptVerify o => simp [isDone] at hd
    | invokeSink o => simp [isDone] at hd
    | finalize o => simp [isDone] at hd

/-- Claim C2 witness: two concurrent callers under the schedule where caller 0
runs to completion and caller 1 then observes the activated order. -/
theorem concurrent_verify_exactly_once_witness :
    (sysRun (.byId "o1") "tx1" 5 (fun _ _ => true) true [0, 0, 0, 0, 1]
      (⟨sampleOneStore, []⟩, List.replicate 2 .start)).1.sinkCalls =
      [("u1", "daily")] ∧
    ∀ p ∈ (sysRun (.byId "o1") "tx1" 5 (fun _ _ => true) true [0, 0, 0, 0, 1]
      (⟨sampleOneStore, []⟩, List.replicate 2 .start)).2,
      p = .done (.ok ⟨"o1", .ACTIVATED⟩) :=
  concurrent_verify_exactly_once (.byId "o1") "tx1" 5 (fun _ _ => true)
    sampleOrderA sampleOneStore 2 [0, 0, 0, 0, 1]
    (storeWF_of_keysOK (by decide)) (by decide) (by decide) rfl (by decide)
    (fun _ => rfl) (by decide) (by decide)

end Betrix

